import Mathlib

/-!
Verification of the loops-go client library (github.com/tilebox/loops-go).

The development shallowly embeds the two core components of the library:

* the extensible-record codec for `Contact` (`Contact.MarshalJSON` /
  `Contact.UnmarshalJSON` in models.go), which inlines the open-ended
  `Properties map[string]any` at the same JSON nesting level as the fixed
  fields, and
* the request/response pipeline in client.go (`NewClient` interceptor chain
  construction, per-endpoint validation, `sendRequest` error normalization).

Go's `map[string]T` values are modelled as association lists together with
lookup / insert / erase operations that give them the semantics of Go maps
(unique keys; insertion overwrites).  JSON documents that Go's
`encoding/json` produces from such maps are modelled at the value level: a
`map[string]any` round-trips through `json.Marshal` / `json.Unmarshal` as the
same key-to-JSON-value mapping, so `Contact.MarshalJSON` is modelled as the
flat object it serializes and `Contact.UnmarshalJSON` as a consumer of the
parsed generic object.
-/

/-- A JSON value, as produced by Go's `encoding/json` when decoding into
`any`: null, booleans, numbers, strings, arrays and objects.  Numbers are
modelled as rationals (Go decodes into float64; no arithmetic is performed on
them anywhere in the library, only structural comparison). -/
inductive JsonValue where
  | null : JsonValue
  | bool (b : Bool) : JsonValue
  | num (q : Rat) : JsonValue
  | str (s : String) : JsonValue
  | arr (elems : List JsonValue) : JsonValue
  | obj (fields : List (String × JsonValue)) : JsonValue
deriving Repr

/-- A Go `map[string]any` holding JSON values, modelled as an association
list.  Go maps have unique keys; operations below give lookup / overwrite /
delete the Go map semantics. -/
abbrev JsonObj := List (String × JsonValue)

/-- Models `m[k]` on a Go map: the value bound to `k`, if any. -/
def jlookup (m : JsonObj) (k : String) : Option JsonValue :=
  (m.find? (fun p => p.1 == k)).map Prod.snd

/-- Models `delete(m, k)` on a Go map: remove every binding of `k`. -/
def jerase (m : JsonObj) (k : String) : JsonObj :=
  m.filter (fun p => p.1 != k)

/-- Models `m[k] = v` on a Go map: bind `k` to `v`, overwriting any prior binding. -/
def jinsert (m : JsonObj) (k : String) (v : JsonValue) : JsonObj :=
  (k, v) :: jerase m k

/-- Models `maps.Copy(dst, src)`: for every key of `src`, set `dst[k] = src[k]`. -/
def mapsCopy (dst src : JsonObj) : JsonObj :=
  src.foldl (fun d p => jinsert d p.1 p.2) dst

/-- The keys of the association list are pairwise distinct (always true of an
association list that models a Go map). -/
abbrev KeysNodup (m : JsonObj) : Prop :=
  (m.map Prod.fst).Nodup

/-- Two modelled Go maps are equal as sets of key/value pairs. -/
def MapEquiv (m m' : JsonObj) : Prop :=
  ∀ k, jlookup m k = jlookup m' k

theorem jlookup_nil (k : String) : jlookup [] k = none := rfl

theorem jlookup_cons (p : String × JsonValue) (m : JsonObj) (k : String) :
    jlookup (p :: m) k = if p.1 = k then some p.2 else jlookup m k := by
  simp only [jlookup, List.find?_cons]
  by_cases h : p.1 = k
  · simp [h]
  · simp [h, beq_eq_false_iff_ne.mpr h]

theorem jlookup_jerase (m : JsonObj) (k k' : String) :
    jlookup (jerase m k) k' = if k' = k then none else jlookup m k' := by
  induction m with
  | nil => simp [jerase, jlookup_nil]
  | cons p m ih =>
    by_cases hpk : p.1 = k
    · by_cases hk : k' = k
      · simp [jerase, List.filter, hpk, hk] at ih ⊢
        simpa [hk] using ih
      · simp only [jerase, List.filter, hpk] at ih ⊢
        simp only [bne_self_eq_false]
        rw [jlookup_cons]
        have : p.1 ≠ k' := by rw [hpk]; exact fun h => hk h.symm
        simp only [this, if_false]
        simpa [hk] using ih
    · simp only [jerase, List.filter] at ih ⊢
      have hbne : (p.1 != k) = true := bne_iff_ne.mpr hpk
      simp only [hbne]
      rw [jlookup_cons, jlookup_cons]
      by_cases hpk' : p.1 = k'
      · have hk : ¬ (k' = k) := by rw [← hpk']; exact fun h => hpk h
        simp [hpk', hk]
      · simp only [hpk', if_false]
        exact ih

theorem jlookup_jinsert (m : JsonObj) (k k' : String) (v : JsonValue) :
    jlookup (jinsert m k v) k' = if k' = k then some v else jlookup m k' := by
  rw [jinsert, jlookup_cons]
  by_cases h : k' = k
  · simp [h]
  · have : ¬ (k = k') := fun hh => h hh.symm
    simp [h, this, jlookup_jerase]

theorem jlookup_jinsert_same (m : JsonObj) (k : String) (v : JsonValue) :
    jlookup (jinsert m k v) k = some v := by
  simp [jlookup_jinsert]

theorem jlookup_jinsert_ne (m : JsonObj) (k k' : String) (v : JsonValue)
    (h : k' ≠ k) : jlookup (jinsert m k v) k' = jlookup m k' := by
  simp [jlookup_jinsert, h]

theorem jlookup_mapsCopy_of_not_mem (dst src : JsonObj) (k : String)
    (h : jlookup src k = none) :
    jlookup (mapsCopy dst src) k = jlookup dst k := by
  induction src generalizing dst with
  | nil => rfl
  | cons p src ih =>
    rw [jlookup_cons] at h
    by_cases hpk : p.1 = k
    · simp [hpk] at h
    · simp only [hpk, if_false] at h
      rw [mapsCopy, List.foldl_cons]
      have := ih (jinsert dst p.1 p.2) h
      rw [mapsCopy] at this
      rw [this, jlookup_jinsert_ne _ _ _ _ (fun hh => hpk hh.symm)]

theorem jlookup_mapsCopy_of_mem (dst src : JsonObj) (k : String)
    (v : JsonValue) (hnd : KeysNodup src) (h : jlookup src k = some v) :
    jlookup (mapsCopy dst src) k = some v := by
  induction src generalizing dst with
  | nil => simp [jlookup_nil] at h
  | cons p src ih =>
    rw [KeysNodup, List.map_cons, List.nodup_cons] at hnd
    rw [jlookup_cons] at h
    rw [mapsCopy, List.foldl_cons]
    by_cases hpk : p.1 = k
    · simp only [hpk, if_true] at h
      have hnone : jlookup src k = none := by
        cases hsrc : jlookup src k with
        | none => rfl
        | some w =>
          exfalso
          have hkmem : k ∈ List.map Prod.fst src := by
            rw [jlookup] at hsrc
            cases hf : src.find? (fun q => q.1 == k) with
            | none => rw [hf] at hsrc; simp at hsrc
            | some q =>
              have hqmem := List.mem_of_find?_eq_some hf
              have hqk : q.1 = k := by
                have hb := List.find?_some hf
                simpa using hb
              rw [← hqk]
              exact List.mem_map_of_mem Prod.fst hqmem
          exact hnd.1 (hpk ▸ hkmem)
      have hrest := jlookup_mapsCopy_of_not_mem (jinsert dst p.1 p.2) src k hnone
      rw [mapsCopy] at hrest
      rw [hrest]
      subst hpk
      rw [jlookup_jinsert_same]
      exact h
    · simp only [hpk, if_false] at h
      exact ih (jinsert dst p.1 p.2) hnd.2 h

/-- The `Contact` model (models.go).  `ID`, `Email`, `Subscribed` are the Go
struct's non-pointer fields; pointer fields are `Option`s; the Go
`map[string]bool` for `MailingLists` is a nilable association list; the
open-ended `Properties map[string]any` is a `JsonObj` (a Go nil map behaves
identically to an empty one everywhere the codec touches it). -/
structure Contact where
  ID : String
  Email : String
  FirstName : Option String
  LastName : Option String
  Source : Option String
  Subscribed : Bool
  UserGroup : Option String
  UserID : Option String
  MailingLists : Option (List (String × Bool))
  OptInStatus : Option String
  Properties : JsonObj
deriving Repr

/-- The zero value of the Go `Contact` struct (a fresh unmarshal receiver). -/
def emptyContact : Contact :=
  { ID := "", Email := "", FirstName := none, LastName := none,
    Source := none, Subscribed := false, UserGroup := none, UserID := none,
    MailingLists := none, OptInStatus := none, Properties := [] }

/-- The known-attribute key names of `Contact` handled by the codec. -/
def contactKnownKeys : List String :=
  ["id", "email", "subscribed", "firstName", "lastName", "source",
   "userGroup", "userId", "mailingLists", "optInStatus"]

/-- Models `if field != nil, data[key] = *field` for a string-valued optional. -/
def insertOptStr (d : JsonObj) (key : String) (o : Option String) : JsonObj :=
  match o with
  | some v => jinsert d key (.str v)
  | none => d

/-- A Go `map[string]bool` embedded as the JSON object `encoding/json`
produces for it. -/
def mlToJson (m : List (String × Bool)) : JsonValue :=
  .obj (m.map (fun p => (p.1, JsonValue.bool p.2)))

/-- Models `if c.MailingLists != nil, data["mailingLists"] = c.MailingLists`. -/
def insertOptMl (d : JsonObj) (o : Option (List (String × Bool))) : JsonObj :=
  match o with
  | some m => jinsert d "mailingLists" (mlToJson m)
  | none => d

/-- The flat map `data` built by `Contact.MarshalJSON` before the final
`maps.Copy(data, c.Properties)`: the map literal with `id`, `email` and
`subscribed` always present, then each non-nil optional field. -/
def marshalData (c : Contact) : JsonObj :=
  let data := jinsert (jinsert (jinsert [] "id" (.str c.ID))
    "email" (.str c.Email)) "subscribed" (.bool c.Subscribed)
  let data := insertOptStr data "firstName" c.FirstName
  let data := insertOptStr data "lastName" c.LastName
  let data := insertOptStr data "source" c.Source
  let data := insertOptStr data "userGroup" c.UserGroup
  let data := insertOptStr data "userId" c.UserID
  let data := insertOptMl data c.MailingLists
  insertOptStr data "optInStatus" c.OptInStatus

/-- Models `Contact.MarshalJSON`: builds `data`, then `maps.Copy(data, c.Properties)`
and serializes the resulting flat map.  The model returns that flat map (the
serialized bytes re-parse to exactly this key-to-value mapping). -/
def marshalContact (c : Contact) : JsonObj :=
  mapsCopy (marshalData c) c.Properties

/-- Outcome of `Contact.UnmarshalJSON` on the parsed generic object: `ok` with
the fully assigned receiver, `err` with the Go error message together with the
receiver state at the moment the error is returned (Go mutates the receiver in
place), or `panicked` when the unchecked type assertion `v.(bool)` in the
mailingLists loop aborts the decode abnormally. -/
inductive DecodeResult where
  | ok (c : Contact)
  | err (msg : String) (c : Contact)
  | panicked
deriving Repr

/-- One optional known-attribute step of `Contact.UnmarshalJSON`:
`if v, ok := values[key].(string); ok, assign v and delete key` — on a
missing key or a non-string value nothing is assigned and nothing deleted. -/
def stepOptField (assign : Contact → String → Contact) (key : String)
    (c : Contact) (values : JsonObj) : Contact × JsonObj :=
  match jlookup values key with
  | some (.str s) => (assign c s, jerase values key)
  | _ => (c, values)

/-- The five optional string-typed known attributes, extracted in source
order: firstName, lastName, source, userGroup, userId. -/
def unmarshalOptionals (c : Contact) (values : JsonObj) : Contact × JsonObj :=
  let r := stepOptField (fun c s => { c with FirstName := some s }) "firstName" c values
  let r := stepOptField (fun c s => { c with LastName := some s }) "lastName" r.1 r.2
  let r := stepOptField (fun c s => { c with Source := some s }) "source" r.1 r.2
  let r := stepOptField (fun c s => { c with UserGroup := some s }) "userGroup" r.1 r.2
  stepOptField (fun c s => { c with UserID := some s }) "userId" r.1 r.2

/-- The loop `for k, v := range mailingLists, c.MailingLists[k] = v.(bool)`:
returns the typed bool map, or `none` when some inner value is not a boolean,
in which case the unchecked type assertion `v.(bool)` panics. -/
def toBoolMap : List (String × JsonValue) → Option (List (String × Bool))
  | [] => some []
  | (k, v) :: rest =>
    match v with
    | .bool b => (toBoolMap rest).map (fun r => (k, b) :: r)
    | _ => none

/-- Tail of `Contact.UnmarshalJSON` after the mailingLists block: the
optInStatus optional extraction, then `c.Properties` is assigned the residual
of the working map. -/
def unmarshalTail (c : Contact) (values : JsonObj) : DecodeResult :=
  let r := stepOptField (fun c s => { c with OptInStatus := some s }) "optInStatus" c values
  .ok { r.1 with Properties := r.2 }

/-- The mailingLists block of `Contact.UnmarshalJSON`: if the entry is a JSON
object, convert every inner value with the unchecked assertion `v.(bool)`
(panicking on a non-bool) and delete the key; otherwise leave the working map
untouched. -/
def unmarshalMailingLists (c : Contact) (values : JsonObj) : DecodeResult :=
  match jlookup values "mailingLists" with
  | some (.obj ml) =>
    match toBoolMap ml with
    | some bm =>
      unmarshalTail { c with MailingLists := some bm } (jerase values "mailingLists")
    | none => .panicked
  | _ => unmarshalTail c values

/-- Models `Contact.UnmarshalJSON`, applied to the generic map obtained by parsing
the input bytes (`json.Unmarshal(data, &values)`; non-object inputs fail that
parse before the receiver is touched and are outside this model).  Required
fields `id`, `email`, `subscribed` are extracted in order, failing immediately
with the Go error message on a missing or wrongly typed entry; then the
optional fields, the mailingLists block, and the residual becomes
`Properties`. -/
def unmarshalContact (c0 : Contact) (values : JsonObj) : DecodeResult :=
  match jlookup values "id" with
  | some (.str idv) =>
    let c1 := { c0 with ID := idv }
    let values1 := jerase values "id"
    match jlookup values1 "email" with
    | some (.str email) =>
      let c2 := { c1 with Email := email }
      let values2 := jerase values1 "email"
      match jlookup values2 "subscribed" with
      | some (.bool sub) =>
        let c3 := { c2 with Subscribed := sub }
        let values3 := jerase values2 "subscribed"
        let r := unmarshalOptionals c3 values3
        unmarshalMailingLists r.1 r.2
      | _ => .err "missing or invalid \x27subscribed\x27 field" c2
    | _ => .err "missing or invalid \x27email\x27 field" c1
  | _ => .err "missing or invalid \x27id\x27 field" c0

theorem insertOptStr_lookup_ne (d : JsonObj) (key : String) (o : Option String)
    (k : String) (h : k ≠ key) :
    jlookup (insertOptStr d key o) k = jlookup d k := by
  cases o <;> simp [insertOptStr, jlookup_jinsert_ne _ _ _ _ h]

theorem insertOptStr_lookup_self (d : JsonObj) (key : String) (o : Option String)
    (hd : jlookup d key = none) :
    jlookup (insertOptStr d key o) key = o.map JsonValue.str := by
  cases o <;> simp [insertOptStr, jlookup_jinsert_same, hd]

theorem insertOptMl_lookup_ne (d : JsonObj) (o : Option (List (String × Bool)))
    (k : String) (h : k ≠ "mailingLists") :
    jlookup (insertOptMl d o) k = jlookup d k := by
  cases o <;> simp [insertOptMl, jlookup_jinsert_ne _ _ _ _ h]

theorem insertOptMl_lookup_self (d : JsonObj) (o : Option (List (String × Bool)))
    (hd : jlookup d "mailingLists" = none) :
    jlookup (insertOptMl d o) "mailingLists" = o.map mlToJson := by
  cases o <;> simp [insertOptMl, jlookup_jinsert_same, hd]

theorem marshalData_lookup_id (c : Contact) :
    jlookup (marshalData c) "id" = some (.str c.ID) := by
  simp [marshalData, insertOptStr_lookup_ne, insertOptMl_lookup_ne, jlookup_jinsert]

theorem marshalData_lookup_email (c : Contact) :
    jlookup (marshalData c) "email" = some (.str c.Email) := by
  simp [marshalData, insertOptStr_lookup_ne, insertOptMl_lookup_ne, jlookup_jinsert]

theorem marshalData_lookup_subscribed (c : Contact) :
    jlookup (marshalData c) "subscribed" = some (.bool c.Subscribed) := by
  simp [marshalData, insertOptStr_lookup_ne, insertOptMl_lookup_ne, jlookup_jinsert]

theorem marshalData_lookup_firstName (c : Contact) :
    jlookup (marshalData c) "firstName" = c.FirstName.map JsonValue.str := by
  simp [marshalData, insertOptStr_lookup_ne, insertOptMl_lookup_ne,
    insertOptStr_lookup_self, jlookup_jinsert, jlookup_nil]

theorem marshalData_lookup_lastName (c : Contact) :
    jlookup (marshalData c) "lastName" = c.LastName.map JsonValue.str := by
  simp [marshalData, insertOptStr_lookup_ne, insertOptMl_lookup_ne,
    insertOptStr_lookup_self, jlookup_jinsert, jlookup_nil]

theorem marshalData_lookup_source (c : Contact) :
    jlookup (marshalData c) "source" = c.Source.map JsonValue.str := by
  simp [marshalData, insertOptStr_lookup_ne, insertOptMl_lookup_ne,
    insertOptStr_lookup_self, jlookup_jinsert, jlookup_nil]

theorem marshalData_lookup_userGroup (c : Contact) :
    jlookup (marshalData c) "userGroup" = c.UserGroup.map JsonValue.str := by
  simp [marshalData, insertOptStr_lookup_ne, insertOptMl_lookup_ne,
    insertOptStr_lookup_self, jlookup_jinsert, jlookup_nil]

theorem marshalData_lookup_userId (c : Contact) :
    jlookup (marshalData c) "userId" = c.UserID.map JsonValue.str := by
  simp [marshalData, insertOptStr_lookup_ne, insertOptMl_lookup_ne,
    insertOptStr_lookup_self, jlookup_jinsert, jlookup_nil]

theorem marshalData_lookup_mailingLists (c : Contact) :
    jlookup (marshalData c) "mailingLists" = c.MailingLists.map mlToJson := by
  simp [marshalData, insertOptStr_lookup_ne, insertOptMl_lookup_self,
    jlookup_jinsert, jlookup_nil]

theorem marshalData_lookup_optInStatus (c : Contact) :
    jlookup (marshalData c) "optInStatus" = c.OptInStatus.map JsonValue.str := by
  simp only [marshalData]
  rw [insertOptStr_lookup_self]
  simp [insertOptStr_lookup_ne, insertOptMl_lookup_ne, jlookup_jinsert, jlookup_nil]

theorem marshalData_lookup_other (c : Contact) (k : String)
    (h : k ∉ contactKnownKeys) : jlookup (marshalData c) k = none := by
  simp only [contactKnownKeys, List.mem_cons, List.not_mem_nil, or_false, not_or] at h
  obtain ⟨h1, h2, h3, h4, h5, h6, h7, h8, h9, h10⟩ := h
  simp [marshalData, insertOptStr_lookup_ne _ _ _ _ h4,
    insertOptStr_lookup_ne _ _ _ _ h5, insertOptStr_lookup_ne _ _ _ _ h6,
    insertOptStr_lookup_ne _ _ _ _ h7, insertOptStr_lookup_ne _ _ _ _ h8,
    insertOptStr_lookup_ne _ _ _ _ h10, insertOptMl_lookup_ne _ _ _ h9,
    jlookup_jinsert, h1, h2, h3, jlookup_nil]

theorem jlookup_eq_none_of_disjoint (m : JsonObj) (k : String)
    (h : ∀ p ∈ m, p.1 ≠ k) : jlookup m k = none := by
  rw [jlookup, List.find?_eq_none.mpr]
  · rfl
  · intro p hp
    simp only [beq_iff_eq]
    exact h p hp

theorem marshalContact_lookup_of_props_none (c : Contact) (k : String)
    (h : jlookup c.Properties k = none) :
    jlookup (marshalContact c) k = jlookup (marshalData c) k :=
  jlookup_mapsCopy_of_not_mem _ _ _ h

theorem marshalContact_lookup_of_props_some (c : Contact) (k : String)
    (v : JsonValue) (hnd : KeysNodup c.Properties)
    (h : jlookup c.Properties k = some v) :
    jlookup (marshalContact c) k = some v :=
  jlookup_mapsCopy_of_mem _ _ _ _ hnd h

/-- Erase a list of keys in order (the keys consumed by the decoder). -/
def eraseAll (m : JsonObj) (keys : List String) : JsonObj :=
  keys.foldl jerase m

theorem jlookup_eraseAll (m : JsonObj) (keys : List String) (k : String) :
    jlookup (eraseAll m keys) k = if k ∈ keys then none else jlookup m k := by
  induction keys generalizing m with
  | nil => simp [eraseAll]
  | cons key keys ih =>
    rw [eraseAll, List.foldl_cons]
    have := ih (jerase m key)
    rw [eraseAll] at this
    rw [this, jlookup_jerase]
    by_cases hk : k ∈ keys
    · simp [hk]
    · by_cases hkey : k = key <;> simp [hk, hkey]

theorem jerase_of_lookup_none (m : JsonObj) (k : String)
    (h : jlookup m k = none) : jerase m k = m := by
  rw [jerase, List.filter_eq_self]
  intro p hp
  rw [jlookup] at h
  cases hf : m.find? (fun q => q.1 == k) with
  | some q => rw [hf] at h; simp at h
  | none =>
    have := List.find?_eq_none.mp hf p hp
    simpa using this

theorem stepOptField_of_lookup (assign : Contact → String → Contact)
    (key : String) (c : Contact) (values : JsonObj) (o : Option String)
    (h : jlookup values key = o.map JsonValue.str) :
    stepOptField assign key c values =
      ((match o with | some s => assign c s | none => c), jerase values key) := by
  cases o with
  | some s => simp [stepOptField, h]
  | none =>
    simp only [Option.map_none'] at h
    simp [stepOptField, h, jerase_of_lookup_none values key h]

theorem toBoolMap_mlToJson (m : List (String × Bool)) :
    toBoolMap (m.map (fun p => (p.1, JsonValue.bool p.2))) = some m := by
  induction m with
  | nil => rfl
  | cons p m ih => simp [toBoolMap, ih]

/-- JSON-safe scalar or string values (null, boolean, number, string). -/
def JsonValue.isScalar : JsonValue → Bool
  | .null => true
  | .bool _ => true
  | .num _ => true
  | .str _ => true
  | _ => false

/-- The combined effect on the receiver of the five optional string-typed
extraction steps, given for each the extracted value (if its entry was
present with string type). -/
def applyOptStrs (c : Contact) (o1 o2 o3 o4 o5 : Option String) : Contact :=
  { c with
    FirstName := match o1 with | some s => some s | none => c.FirstName,
    LastName := match o2 with | some s => some s | none => c.LastName,
    Source := match o3 with | some s => some s | none => c.Source,
    UserGroup := match o4 with | some s => some s | none => c.UserGroup,
    UserID := match o5 with | some s => some s | none => c.UserID }

theorem unmarshalOptionals_eq (c : Contact) (values : JsonObj)
    (o1 o2 o3 o4 o5 : Option String)
    (h1 : jlookup values "firstName" = o1.map JsonValue.str)
    (h2 : jlookup values "lastName" = o2.map JsonValue.str)
    (h3 : jlookup values "source" = o3.map JsonValue.str)
    (h4 : jlookup values "userGroup" = o4.map JsonValue.str)
    (h5 : jlookup values "userId" = o5.map JsonValue.str) :
    unmarshalOptionals c values =
      (applyOptStrs c o1 o2 o3 o4 o5,
       jerase (jerase (jerase (jerase (jerase values "firstName") "lastName")
         "source") "userGroup") "userId") := by
  cases o1 <;> cases o2 <;> cases o3 <;> cases o4 <;> cases o5 <;>
    simp [unmarshalOptionals, stepOptField, applyOptStrs, h1, h2, h3, h4, h5,
      jlookup_jerase, jerase_of_lookup_none]

theorem residual_equiv (c : Contact) (hnd : KeysNodup c.Properties)
    (hdisj : ∀ p ∈ c.Properties, p.1 ∉ contactKnownKeys)
    (keys : List String) (hsub : ∀ k ∈ keys, k ∈ contactKnownKeys)
    (hcover : ∀ k ∈ contactKnownKeys, k ∉ keys →
      jlookup (marshalContact c) k = none) :
    MapEquiv (eraseAll (marshalContact c) keys) c.Properties := by
  intro k
  rw [jlookup_eraseAll]
  by_cases hk : k ∈ keys
  · simp only [hk, if_true]
    have hkn : k ∈ contactKnownKeys := hsub k hk
    exact (jlookup_eq_none_of_disjoint _ _
      (fun p hp he => hdisj p hp (he ▸ hkn))).symm
  · simp only [hk, if_false]
    by_cases hkn : k ∈ contactKnownKeys
    · rw [hcover k hkn hk]
      exact (jlookup_eq_none_of_disjoint _ _
        (fun p hp he => hdisj p hp (he ▸ hkn))).symm
    · cases hp : jlookup c.Properties k with
      | none =>
        rw [marshalContact_lookup_of_props_none c k hp,
          marshalData_lookup_other c k hkn]
      | some v => rw [marshalContact_lookup_of_props_some c k v hnd hp]

/-- Claim C3: for every Contact with id, email and subscribed set, whose
extension-mapping keys are disjoint from the known-attribute key names and
whose extension values are JSON-safe scalars or strings, unmarshalling the
bytes produced by `Contact.MarshalJSON` yields a Contact with the same
known-attribute values and an extension mapping equal, as a set of key/value
pairs, to the original. -/
theorem contact_encode_decode_roundtrip (c : Contact)
    (hnd : KeysNodup c.Properties)
    (hdisj : ∀ p ∈ c.Properties, p.1 ∉ contactKnownKeys)
    (hscalar : ∀ p ∈ c.Properties, p.2.isScalar = true) :
    ∃ c' : Contact,
      unmarshalContact emptyContact (marshalContact c) = .ok c' ∧
      c'.ID = c.ID ∧ c'.Email = c.Email ∧ c'.Subscribed = c.Subscribed ∧
      c'.FirstName = c.FirstName ∧ c'.LastName = c.LastName ∧
      c'.Source = c.Source ∧ c'.UserGroup = c.UserGroup ∧
      c'.UserID = c.UserID ∧ c'.MailingLists = c.MailingLists ∧
      c'.OptInStatus = c.OptInStatus ∧
      MapEquiv c'.Properties c.Properties := by
  obtain ⟨cID, cEmail, cFN, cLN, cSrc, cSub, cUG, cUID, cML, cOIS, cProps⟩ := c
  dsimp only at hnd hdisj hscalar ⊢
  have hprop : ∀ K ∈ contactKnownKeys, jlookup cProps K = none := by
    intro K hK
    exact jlookup_eq_none_of_disjoint _ _ (fun p hp he => hdisj p hp (he ▸ hK))
  have hMid : jlookup (marshalContact
      ⟨cID, cEmail, cFN, cLN, cSrc, cSub, cUG, cUID, cML, cOIS, cProps⟩)
      "id" = some (.str cID) := by
    rw [marshalContact_lookup_of_props_none _ _
      (hprop "id" (by simp [contactKnownKeys]))]
    exact marshalData_lookup_id _
  have hMemail : jlookup (marshalContact
      ⟨cID, cEmail, cFN, cLN, cSrc, cSub, cUG, cUID, cML, cOIS, cProps⟩)
      "email" = some (.str cEmail) := by
    rw [marshalContact_lookup_of_props_none _ _
      (hprop "email" (by simp [contactKnownKeys]))]
    exact marshalData_lookup_email _
  have hMsub : jlookup (marshalContact
      ⟨cID, cEmail, cFN, cLN, cSrc, cSub, cUG, cUID, cML, cOIS, cProps⟩)
      "subscribed" = some (.bool cSub) := by
    rw [marshalContact_lookup_of_props_none _ _
      (hprop "subscribed" (by simp [contactKnownKeys]))]
    exact marshalData_lookup_subscribed _
  have hMfn : jlookup (marshalContact
      ⟨cID, cEmail, cFN, cLN, cSrc, cSub, cUG, cUID, cML, cOIS, cProps⟩)
      "firstName" = cFN.map JsonValue.str := by
    rw [marshalContact_lookup_of_props_none _ _
      (hprop "firstName" (by simp [contactKnownKeys]))]
    exact marshalData_lookup_firstName _
  have hMln : jlookup (marshalContact
      ⟨cID, cEmail, cFN, cLN, cSrc, cSub, cUG, cUID, cML, cOIS, cProps⟩)
      "lastName" = cLN.map JsonValue.str := by
    rw [marshalContact_lookup_of_props_none _ _
      (hprop "lastName" (by simp [contactKnownKeys]))]
    exact marshalData_lookup_lastName _
  have hMsrc : jlookup (marshalContact
      ⟨cID, cEmail, cFN, cLN, cSrc, cSub, cUG, cUID, cML, cOIS, cProps⟩)
      "source" = cSrc.map JsonValue.str := by
    rw [marshalContact_lookup_of_props_none _ _
      (hprop "source" (by simp [contactKnownKeys]))]
    exact marshalData_lookup_source _
  have hMug : jlookup (marshalContact
      ⟨cID, cEmail, cFN, cLN, cSrc, cSub, cUG, cUID, cML, cOIS, cProps⟩)
      "userGroup" = cUG.map JsonValue.str := by
    rw [marshalContact_lookup_of_props_none _ _
      (hprop "userGroup" (by simp [contactKnownKeys]))]
    exact marshalData_lookup_userGroup _
  have hMuid : jlookup (marshalContact
      ⟨cID, cEmail, cFN, cLN, cSrc, cSub, cUG, cUID, cML, cOIS, cProps⟩)
      "userId" = cUID.map JsonValue.str := by
    rw [marshalContact_lookup_of_props_none _ _
      (hprop "userId" (by simp [contactKnownKeys]))]
    exact marshalData_lookup_userId _
  have hMml : jlookup (marshalContact
      ⟨cID, cEmail, cFN, cLN, cSrc, cSub, cUG, cUID, cML, cOIS, cProps⟩)
      "mailingLists" = cML.map mlToJson := by
    rw [marshalContact_lookup_of_props_none _ _
      (hprop "mailingLists" (by simp [contactKnownKeys]))]
    exact marshalData_lookup_mailingLists _
  have hMopt : jlookup (marshalContact
      ⟨cID, cEmail, cFN, cLN, cSrc, cSub, cUG, cUID, cML, cOIS, cProps⟩)
      "optInStatus" = cOIS.map JsonValue.str := by
    rw [marshalContact_lookup_of_props_none _ _
      (hprop "optInStatus" (by simp [contactKnownKeys]))]
    exact marshalData_lookup_optInStatus _
  have e1 : jlookup (jerase (marshalContact
      ⟨cID, cEmail, cFN, cLN, cSrc, cSub, cUG, cUID, cML, cOIS, cProps⟩)
      "id") "email" = some (.str cEmail) := by
    simp [jlookup_jerase, hMemail]
  have e2 : jlookup (jerase (jerase (marshalContact
      ⟨cID, cEmail, cFN, cLN, cSrc, cSub, cUG, cUID, cML, cOIS, cProps⟩)
      "id") "email") "subscribed" = some (.bool cSub) := by
    simp [jlookup_jerase, hMsub]
  have e3 : jlookup (jerase (jerase (jerase (marshalContact
      ⟨cID, cEmail, cFN, cLN, cSrc, cSub, cUG, cUID, cML, cOIS, cProps⟩)
      "id") "email") "subscribed") "firstName" = cFN.map JsonValue.str := by
    simp [jlookup_jerase, hMfn]
  have e4 : jlookup (jerase (jerase (jerase (marshalContact
      ⟨cID, cEmail, cFN, cLN, cSrc, cSub, cUG, cUID, cML, cOIS, cProps⟩)
      "id") "email") "subscribed") "lastName" = cLN.map JsonValue.str := by
    simp [jlookup_jerase, hMln]
  have e5 : jlookup (jerase (jerase (jerase (marshalContact
      ⟨cID, cEmail, cFN, cLN, cSrc, cSub, cUG, cUID, cML, cOIS, cProps⟩)
      "id") "email") "subscribed") "source" = cSrc.map JsonValue.str := by
    simp [jlookup_jerase, hMsrc]
  have e6 : jlookup (jerase (jerase (jerase (marshalContact
      ⟨cID, cEmail, cFN, cLN, cSrc, cSub, cUG, cUID, cML, cOIS, cProps⟩)
      "id") "email") "subscribed") "userGroup" = cUG.map JsonValue.str := by
    simp [jlookup_jerase, hMug]
  have e7 : jlookup (jerase (jerase (jerase (marshalContact
      ⟨cID, cEmail, cFN, cLN, cSrc, cSub, cUG, cUID, cML, cOIS, cProps⟩)
      "id") "email") "subscribed") "userId" = cUID.map JsonValue.str := by
    simp [jlookup_jerase, hMuid]
  simp only [unmarshalContact, hMid, e1, e2]
  rw [unmarshalOptionals_eq _ _ cFN cLN cSrc cUG cUID e3 e4 e5 e6 e7]
  have e8 : jlookup (jerase (jerase (jerase (jerase (jerase (jerase (jerase
      (jerase (marshalContact
      ⟨cID, cEmail, cFN, cLN, cSrc, cSub, cUG, cUID, cML, cOIS, cProps⟩)
      "id") "email") "subscribed") "firstName") "lastName") "source")
      "userGroup") "userId") "mailingLists" = cML.map mlToJson := by
    simp [jlookup_jerase, hMml]
  cases cML with
  | none =>
    simp only [Option.map_none'] at e8 hMml
    simp only [unmarshalMailingLists, e8]
    have e9 : jlookup (jerase (jerase (jerase (jerase (jerase (jerase (jerase
        (jerase (marshalContact
        ⟨cID, cEmail, cFN, cLN, cSrc, cSub, cUG, cUID, none, cOIS, cProps⟩)
        "id") "email") "subscribed") "firstName") "lastName") "source")
        "userGroup") "userId") "optInStatus" = cOIS.map JsonValue.str := by
      simp [jlookup_jerase, hMopt]
    simp only [unmarshalTail]
    rw [stepOptField_of_lookup _ _ _ _ cOIS e9]
    have hequiv := residual_equiv
      ⟨cID, cEmail, cFN, cLN, cSrc, cSub, cUG, cUID, none, cOIS, cProps⟩
      hnd hdisj
      ["id", "email", "subscribed", "firstName", "lastName", "source",
       "userGroup", "userId", "optInStatus"]
      (by decide)
      (by
        intro k hkn hknot
        have hkml : k = "mailingLists" := by
          simp only [contactKnownKeys, List.mem_cons, List.not_mem_nil,
            or_false] at hkn
          rcases hkn with rfl|rfl|rfl|rfl|rfl|rfl|rfl|rfl|rfl|rfl
          all_goals first
            | rfl
            | exact absurd (by simp) hknot
        rw [hkml, hMml])
    refine ⟨_, rfl, ?_, ?_, ?_, ?_, ?_, ?_, ?_, ?_, ?_, ?_, hequiv⟩
    · cases cOIS <;> rfl
    · cases cOIS <;> rfl
    · cases cOIS <;> rfl
    · cases cOIS <;> cases cFN <;> rfl
    · cases cOIS <;> cases cLN <;> rfl
    · cases cOIS <;> cases cSrc <;> rfl
    · cases cOIS <;> cases cUG <;> rfl
    · cases cOIS <;> cases cUID <;> rfl
    · cases cOIS <;> rfl
    · cases cOIS <;> rfl
  | some m =>
    simp only [Option.map_some'] at e8 hMml
    simp only [unmarshalMailingLists, e8, mlToJson, toBoolMap_mlToJson]
    have e9 : jlookup (jerase (jerase (jerase (jerase (jerase (jerase (jerase
        (jerase (jerase (marshalContact
        ⟨cID, cEmail, cFN, cLN, cSrc, cSub, cUG, cUID, some m, cOIS, cProps⟩)
        "id") "email") "subscribed") "firstName") "lastName") "source")
        "userGroup") "userId") "mailingLists") "optInStatus" =
        cOIS.map JsonValue.str := by
      simp [jlookup_jerase, hMopt]
    simp only [unmarshalTail]
    rw [stepOptField_of_lookup _ _ _ _ cOIS e9]
    have hequiv := residual_equiv
      ⟨cID, cEmail, cFN, cLN, cSrc, cSub, cUG, cUID, some m, cOIS, cProps⟩
      hnd hdisj contactKnownKeys (fun k hk => hk)
      (fun k hk hnk => absurd hk hnk)
    refine ⟨_, rfl, ?_, ?_, ?_, ?_, ?_, ?_, ?_, ?_, ?_, ?_, hequiv⟩
    · cases cOIS <;> rfl
    · cases cOIS <;> rfl
    · cases cOIS <;> rfl
    · cases cOIS <;> cases cFN <;> rfl
    · cases cOIS <;> cases cLN <;> rfl
    · cases cOIS <;> cases cSrc <;> rfl
    · cases cOIS <;> cases cUG <;> rfl
    · cases cOIS <;> cases cUID <;> rfl
    · cases cOIS <;> rfl
    · cases cOIS <;> rfl

/-- The optional string-typed known-attribute keys of `Contact`. -/
def optionalStrKeys : List String :=
  ["firstName", "lastName", "source", "userGroup", "userId", "optInStatus"]

/-- The optional string-typed known attribute addressed by its JSON key,
read off a contact (used to state preservation of those attributes). -/
def optFieldOf (c : Contact) (k : String) : Option String :=
  if k = "firstName" then c.FirstName
  else if k = "lastName" then c.LastName
  else if k = "source" then c.Source
  else if k = "userGroup" then c.UserGroup
  else if k = "userId" then c.UserID
  else if k = "optInStatus" then c.OptInStatus
  else none

theorem stepOptField_no_str (assign : Contact → String → Contact)
    (key : String) (c : Contact) (values : JsonObj) (v : JsonValue)
    (hv : jlookup values key = some v)
    (hnotstr : ∀ s, v ≠ JsonValue.str s) :
    stepOptField assign key c values = (c, values) := by
  cases v with
  | str s => exact absurd rfl (hnotstr s)
  | null => simp [stepOptField, hv]
  | bool b => simp [stepOptField, hv]
  | num q => simp [stepOptField, hv]
  | arr a => simp [stepOptField, hv]
  | obj o => simp [stepOptField, hv]

theorem stepOptField_snd_lookup (assign : Contact → String → Contact)
    (key : String) (c : Contact) (values : JsonObj) (k : String)
    (h : k ≠ key) :
    jlookup (stepOptField assign key c values).2 k = jlookup values k := by
  cases hl : jlookup values key with
  | none => simp [stepOptField, hl]
  | some v => cases v <;> simp [stepOptField, hl, jlookup_jerase, h]

theorem stepOptField_snd_lookup_keep (assign : Contact → String → Contact)
    (key : String) (c : Contact) (values : JsonObj) (k : String)
    (v : JsonValue) (hv : jlookup values k = some v)
    (hnotstr : ∀ s, v ≠ JsonValue.str s) :
    jlookup (stepOptField assign key c values).2 k = some v := by
  by_cases hk : k = key
  · subst hk
    rw [stepOptField_no_str assign k c values v hv hnotstr]
    exact hv
  · rw [stepOptField_snd_lookup assign key c values k hk]
    exact hv

theorem stepOptField_optField (assign : Contact → String → Contact)
    (key : String) (c : Contact) (values : JsonObj) (k : String)
    (v : JsonValue) (hv : jlookup values k = some v)
    (hnotstr : ∀ s, v ≠ JsonValue.str s)
    (hassign : ∀ x s, k ≠ key → optFieldOf (assign x s) k = optFieldOf x k) :
    optFieldOf (stepOptField assign key c values).1 k = optFieldOf c k := by
  by_cases hk : k = key
  · subst hk
    rw [stepOptField_no_str assign k c values v hv hnotstr]
  · cases hl : jlookup values key with
    | none => simp [stepOptField, hl]
    | some w =>
      cases w <;> simp [stepOptField, hl] <;> exact hassign _ _ hk

theorem unmarshalOptionals_snd_lookup (c : Contact) (values : JsonObj)
    (k : String) (v : JsonValue) (hv : jlookup values k = some v)
    (hnotstr : ∀ s, v ≠ JsonValue.str s) :
    jlookup (unmarshalOptionals c values).2 k = some v := by
  simp only [unmarshalOptionals]
  exact stepOptField_snd_lookup_keep _ _ _ _ k v
    (stepOptField_snd_lookup_keep _ _ _ _ k v
      (stepOptField_snd_lookup_keep _ _ _ _ k v
        (stepOptField_snd_lookup_keep _ _ _ _ k v
          (stepOptField_snd_lookup_keep _ _ _ _ k v hv hnotstr)
          hnotstr)
        hnotstr)
      hnotstr)
    hnotstr

theorem unmarshalOptionals_optField (c : Contact) (values : JsonObj)
    (k : String) (v : JsonValue) (hv : jlookup values k = some v)
    (hnotstr : ∀ s, v ≠ JsonValue.str s) :
    optFieldOf (unmarshalOptionals c values).1 k = optFieldOf c k := by
  simp only [unmarshalOptionals]
  rw [stepOptField_optField _ _ _ _ k v
    (stepOptField_snd_lookup_keep _ _ _ _ k v
      (stepOptField_snd_lookup_keep _ _ _ _ k v
        (stepOptField_snd_lookup_keep _ _ _ _ k v
          (stepOptField_snd_lookup_keep _ _ _ _ k v hv hnotstr) hnotstr)
        hnotstr) hnotstr)
    hnotstr (by intro x s hk; simp [optFieldOf, hk])]
  rw [stepOptField_optField _ _ _ _ k v
    (stepOptField_snd_lookup_keep _ _ _ _ k v
      (stepOptField_snd_lookup_keep _ _ _ _ k v
        (stepOptField_snd_lookup_keep _ _ _ _ k v hv hnotstr) hnotstr)
      hnotstr)
    hnotstr (by intro x s hk; simp [optFieldOf, hk])]
  rw [stepOptField_optField _ _ _ _ k v
    (stepOptField_snd_lookup_keep _ _ _ _ k v
      (stepOptField_snd_lookup_keep _ _ _ _ k v hv hnotstr) hnotstr)
    hnotstr (by intro x s hk; simp [optFieldOf, hk])]
  rw [stepOptField_optField _ _ _ _ k v
    (stepOptField_snd_lookup_keep _ _ _ _ k v hv hnotstr)
    hnotstr (by intro x s hk; simp [optFieldOf, hk])]
  exact stepOptField_optField _ _ _ _ k v hv hnotstr
    (by intro x s hk; simp [optFieldOf, hk])

theorem optFieldOf_set_props (x : Contact) (P : JsonObj) (k : String) :
    optFieldOf { x with Properties := P } k = optFieldOf x k := by
  simp [optFieldOf]

theorem optFieldOf_set_ml (x : Contact) (o : Option (List (String × Bool)))
    (k : String) : optFieldOf { x with MailingLists := o } k = optFieldOf x k := by
  simp [optFieldOf]

theorem unmarshalTail_props (c : Contact) (values : JsonObj) (c' : Contact)
    (k : String) (v : JsonValue) (hv : jlookup values k = some v)
    (hnotstr : ∀ s, v ≠ JsonValue.str s)
    (hok : unmarshalTail c values = .ok c') :
    jlookup c'.Properties k = some v ∧ optFieldOf c' k = optFieldOf c k := by
  simp only [unmarshalTail] at hok
  injection hok with h
  subst h
  constructor
  · exact stepOptField_snd_lookup_keep _ _ _ _ k v hv hnotstr
  · rw [optFieldOf_set_props]
    exact stepOptField_optField _ _ _ _ k v hv hnotstr
      (by intro x s hk; simp [optFieldOf, hk])

theorem unmarshalMailingLists_props (c : Contact) (values : JsonObj)
    (c' : Contact) (k : String) (hne : k ≠ "mailingLists") (v : JsonValue)
    (hv : jlookup values k = some v) (hnotstr : ∀ s, v ≠ JsonValue.str s)
    (hok : unmarshalMailingLists c values = .ok c') :
    jlookup c'.Properties k = some v ∧ optFieldOf c' k = optFieldOf c k := by
  cases hml : jlookup values "mailingLists" with
  | none =>
    simp only [unmarshalMailingLists, hml] at hok
    exact unmarshalTail_props c values c' k v hv hnotstr hok
  | some w =>
    cases w with
    | obj ml =>
      cases htb : toBoolMap ml with
      | none => simp [unmarshalMailingLists, hml, htb] at hok
      | some bm =>
        simp only [unmarshalMailingLists, hml, htb] at hok
        have hv9 : jlookup (jerase values "mailingLists") k = some v := by
          simp [jlookup_jerase, hne, hv]
        rcases unmarshalTail_props _ _ c' k v hv9 hnotstr hok with ⟨h1, h2⟩
        refine ⟨h1, ?_⟩
        rw [h2, optFieldOf_set_ml]
    | null =>
      simp only [unmarshalMailingLists, hml] at hok
      exact unmarshalTail_props c values c' k v hv hnotstr hok
    | bool b =>
      simp only [unmarshalMailingLists, hml] at hok
      exact unmarshalTail_props c values c' k v hv hnotstr hok
    | num q =>
      simp only [unmarshalMailingLists, hml] at hok
      exact unmarshalTail_props c values c' k v hv hnotstr hok
    | str s =>
      simp only [unmarshalMailingLists, hml] at hok
      exact unmarshalTail_props c values c' k v hv hnotstr hok
    | arr a =>
      simp only [unmarshalMailingLists, hml] at hok
      exact unmarshalTail_props c values c' k v hv hnotstr hok

/-- Claim C10: for every input to `Contact.UnmarshalJSON` that decodes
successfully and contains an optional known-attribute key (firstName,
lastName, source, userGroup, userId, or optInStatus) bound to a value of the
wrong JSON type, that key/value pair is not assigned to the known attribute
(the attribute keeps the receiver's value) and is not dropped: it appears
verbatim in the resulting extension mapping `Properties`. -/
theorem unmarshal_wrong_typed_optional_preserved (c0 c' : Contact)
    (values : JsonObj) (k : String) (hk : k ∈ optionalStrKeys)
    (v : JsonValue) (hv : jlookup values k = some v)
    (hnotstr : ∀ s, v ≠ JsonValue.str s)
    (hok : unmarshalContact c0 values = .ok c') :
    jlookup c'.Properties k = some v ∧ optFieldOf c' k = optFieldOf c0 k := by
  have hkne : k ≠ "id" ∧ k ≠ "email" ∧ k ≠ "subscribed" ∧
      k ≠ "mailingLists" := by
    simp only [optionalStrKeys, List.mem_cons, List.not_mem_nil,
      or_false] at hk
    rcases hk with rfl|rfl|rfl|rfl|rfl|rfl <;>
      exact ⟨by simp, by simp, by simp, by simp⟩
  cases hid : jlookup values "id" with
  | none => simp [unmarshalContact, hid] at hok
  | some v1 =>
    cases v1
    case str s1 =>
      cases hem : jlookup (jerase values "id") "email" with
      | none => simp [unmarshalContact, hid, hem] at hok
      | some v2 =>
        cases v2
        case str s2 =>
          cases hsub : jlookup (jerase (jerase values "id") "email")
              "subscribed" with
          | none => simp [unmarshalContact, hid, hem, hsub] at hok
          | some v3 =>
            cases v3
            case bool b =>
              simp only [unmarshalContact, hid, hem, hsub] at hok
              have hv3 : jlookup (jerase (jerase (jerase values "id") "email")
                  "subscribed") k = some v := by
                simp [jlookup_jerase, hkne.1, hkne.2.1, hkne.2.2.1, hv]
              have hvopt := unmarshalOptionals_snd_lookup
                ({ c0 with ID := s1, Email := s2, Subscribed := b }) _ k v
                hv3 hnotstr
              have hfopt := unmarshalOptionals_optField
                ({ c0 with ID := s1, Email := s2, Subscribed := b }) _ k v
                hv3 hnotstr
              rcases unmarshalMailingLists_props _ _ c' k hkne.2.2.2 v hvopt
                hnotstr hok with ⟨h1, h2⟩
              refine ⟨h1, ?_⟩
              rw [h2, hfopt]
              simp [optFieldOf]
            case null => simp [unmarshalContact, hid, hem, hsub] at hok
            case num q => simp [unmarshalContact, hid, hem, hsub] at hok
            case str s => simp [unmarshalContact, hid, hem, hsub] at hok
            case arr a => simp [unmarshalContact, hid, hem, hsub] at hok
            case obj o => simp [unmarshalContact, hid, hem, hsub] at hok
        case null => simp [unmarshalContact, hid, hem] at hok
        case bool b => simp [unmarshalContact, hid, hem] at hok
        case num q => simp [unmarshalContact, hid, hem] at hok
        case arr a => simp [unmarshalContact, hid, hem] at hok
        case obj o => simp [unmarshalContact, hid, hem] at hok
    case null => simp [unmarshalContact, hid] at hok
    case bool b => simp [unmarshalContact, hid] at hok
    case num q => simp [unmarshalContact, hid] at hok
    case arr a => simp [unmarshalContact, hid] at hok
    case obj o => simp [unmarshalContact, hid] at hok

/-- A contact whose extension mapping binds the known-attribute key
`email`. -/
def shadowedContact : Contact :=
  { ID := "1", Email := "real@example.com", FirstName := none,
    LastName := none, Source := none, Subscribed := true, UserGroup := none,
    UserID := none, MailingLists := none, OptInStatus := none,
    Properties := [("email", JsonValue.str "shadow@example.com")] }

/-- Claim C1 counterexample: `Contact.MarshalJSON` binds `email` to the
extension mapping's value, not to the known attribute's value, because
`maps.Copy(data, c.Properties)` runs last and overwrites. -/
theorem marshal_extension_shadow_counterexample :
    jlookup (marshalContact shadowedContact) "email" =
      some (JsonValue.str "shadow@example.com") ∧
    jlookup (marshalContact shadowedContact) "email" ≠
      some (JsonValue.str shadowedContact.Email) := by
  constructor
  · rfl
  · intro h
    have h0 : jlookup (marshalContact shadowedContact) "email" =
        some (JsonValue.str "shadow@example.com") := rfl
    rw [h0] at h
    simp [shadowedContact] at h

/-- Claim C1 (amended): when the extension mapping (with unique keys, as Go
maps have) binds a key, the encoded object binds that key to the extension
mapping's value — even when the key equals a known-attribute name, since
`maps.Copy(data, c.Properties)` overlays the extension entries last. -/
theorem marshal_extension_key_wins (c : Contact) (k : String) (v : JsonValue)
    (hnd : KeysNodup c.Properties) (h : jlookup c.Properties k = some v) :
    jlookup (marshalContact c) k = some v :=
  jlookup_mapsCopy_of_mem _ _ _ _ hnd h

/-- Witness for `marshal_extension_key_wins` at a concrete contact whose
extension mapping binds the known key `email`. -/
theorem marshal_extension_key_wins_witness :
    jlookup (marshalContact shadowedContact) "email" =
      some (JsonValue.str "shadow@example.com") :=
  marshal_extension_key_wins shadowedContact "email"
    (JsonValue.str "shadow@example.com") (by decide) rfl

/-- A well-formed contact object whose `mailingLists` entry carries a
non-boolean inner value. -/
def mailingListsPanicInput : JsonObj :=
  [("id", JsonValue.str "1"), ("email", JsonValue.str "neil@moon.space"),
   ("subscribed", JsonValue.bool true),
   ("mailingLists", JsonValue.obj [("list_1", JsonValue.str "yes")])]

/-- Claim C5 (code bug): on a `mailingLists` object with a non-boolean inner
value, `Contact.UnmarshalJSON` performs the unchecked type assertion
`v.(bool)` and panics instead of returning an error: the model yields the
distinguished `panicked` outcome, which is neither `ok` nor `err`. -/
theorem unmarshal_mailinglists_nonbool_panics :
    unmarshalContact emptyContact mailingListsPanicInput =
      DecodeResult.panicked ∧
    (∀ c, unmarshalContact emptyContact mailingListsPanicInput ≠
      DecodeResult.ok c) ∧
    (∀ msg c, unmarshalContact emptyContact mailingListsPanicInput ≠
      DecodeResult.err msg c) :=
  ⟨rfl, fun _ h => DecodeResult.noConfusion h,
    fun _ _ h => DecodeResult.noConfusion h⟩

/-- Claim C6 counterexample: on an object with a valid `id` but missing
`email`, the decode fails naming `email`, yet the receiver has already been
assigned the decoded id — the record IS partially constructed when the error
is returned. -/
theorem unmarshal_partial_assignment_counterexample :
    unmarshalContact emptyContact
      [("id", JsonValue.str "1"), ("subscribed", JsonValue.bool true)] =
      DecodeResult.err "missing or invalid \x27email\x27 field"
        { emptyContact with ID := "1" } ∧
    ({ emptyContact with ID := "1" } : Contact).ID ≠ emptyContact.ID := by
  constructor
  · rfl
  · simp [emptyContact]

/-- Claim C6 (amended): when a required field (`id`, `email` or `subscribed`)
is absent or has the wrong JSON type, the decode fails immediately with an
error naming that field; however, the required fields checked earlier (in
source order: id, then email, then subscribed) have already been assigned on
the receiver, so the record may be partially constructed. -/
theorem unmarshal_required_field_fail (c0 : Contact) (values : JsonObj) :
    ((∀ s, jlookup values "id" ≠ some (JsonValue.str s)) →
      unmarshalContact c0 values =
        DecodeResult.err "missing or invalid \x27id\x27 field" c0) ∧
    (∀ s1, jlookup values "id" = some (JsonValue.str s1) →
      (∀ s, jlookup (jerase values "id") "email" ≠ some (JsonValue.str s)) →
      unmarshalContact c0 values =
        DecodeResult.err "missing or invalid \x27email\x27 field"
          { c0 with ID := s1 }) ∧
    (∀ s1 s2, jlookup values "id" = some (JsonValue.str s1) →
      jlookup (jerase values "id") "email" = some (JsonValue.str s2) →
      (∀ b, jlookup (jerase (jerase values "id") "email") "subscribed" ≠
        some (JsonValue.bool b)) →
      unmarshalContact c0 values =
        DecodeResult.err "missing or invalid \x27subscribed\x27 field"
          { c0 with ID := s1, Email := s2 }) := by
  refine ⟨?_, ?_, ?_⟩
  · intro h
    cases hid : jlookup values "id" with
    | none => simp [unmarshalContact, hid]
    | some v =>
      cases v
      case str s => exact absurd hid (h s)
      case null => simp [unmarshalContact, hid]
      case bool b => simp [unmarshalContact, hid]
      case num q => simp [unmarshalContact, hid]
      case arr a => simp [unmarshalContact, hid]
      case obj o => simp [unmarshalContact, hid]
  · intro s1 hid h
    cases hem : jlookup (jerase values "id") "email" with
    | none => simp [unmarshalContact, hid, hem]
    | some v =>
      cases v
      case str s => exact absurd hem (h s)
      case null => simp [unmarshalContact, hid, hem]
      case bool b => simp [unmarshalContact, hid, hem]
      case num q => simp [unmarshalContact, hid, hem]
      case arr a => simp [unmarshalContact, hid, hem]
      case obj o => simp [unmarshalContact, hid, hem]
  · intro s1 s2 hid hem h
    cases hsub : jlookup (jerase (jerase values "id") "email")
        "subscribed" with
    | none => simp [unmarshalContact, hid, hem, hsub]
    | some v =>
      cases v
      case bool b => exact absurd hsub (h b)
      case null => simp [unmarshalContact, hid, hem, hsub]
      case str s => simp [unmarshalContact, hid, hem, hsub]
      case num q => simp [unmarshalContact, hid, hem, hsub]
      case arr a => simp [unmarshalContact, hid, hem, hsub]
      case obj o => simp [unmarshalContact, hid, hem, hsub]

/-- Witness for `unmarshal_required_field_fail`: a concrete object with a
valid id and missing email fails naming `email`, with the id already
assigned on the receiver. -/
theorem unmarshal_required_field_fail_witness :
    unmarshalContact emptyContact
      [("id", JsonValue.str "1"), ("subscribed", JsonValue.bool true)] =
      DecodeResult.err "missing or invalid \x27email\x27 field"
        { emptyContact with ID := "1" } :=
  (unmarshal_required_field_fail emptyContact
    [("id", JsonValue.str "1"), ("subscribed", JsonValue.bool true)]).2.1
    "1" rfl (fun s h => Option.noConfusion h)

/-- A fully populated contact with a two-entry extension mapping, used to
witness the round trip. -/
def roundtripExample : Contact :=
  { ID := "123", Email := "test@example.com", FirstName := some "Neil",
    LastName := some "Armstrong", Source := some "api", Subscribed := true,
    UserGroup := some "Astronauts", UserID := some "user_123",
    MailingLists := some [("list_123", true)],
    OptInStatus := some "accepted",
    Properties := [("favoriteColor", JsonValue.str "blue"),
      ("age", JsonValue.num 42)] }

/-- Witness for `contact_encode_decode_roundtrip` at a concrete, fully
populated contact. -/
theorem contact_encode_decode_roundtrip_witness :
    ∃ c' : Contact,
      unmarshalContact emptyContact (marshalContact roundtripExample) =
        .ok c' ∧
      c'.ID = roundtripExample.ID ∧ c'.Email = roundtripExample.Email ∧
      c'.Subscribed = roundtripExample.Subscribed ∧
      c'.FirstName = roundtripExample.FirstName ∧
      c'.LastName = roundtripExample.LastName ∧
      c'.Source = roundtripExample.Source ∧
      c'.UserGroup = roundtripExample.UserGroup ∧
      c'.UserID = roundtripExample.UserID ∧
      c'.MailingLists = roundtripExample.MailingLists ∧
      c'.OptInStatus = roundtripExample.OptInStatus ∧
      MapEquiv c'.Properties roundtripExample.Properties :=
  contact_encode_decode_roundtrip roundtripExample (by decide) (by decide)
    (by decide)

/-- Input whose optional key `firstName` carries a number instead of a
string. -/
def wrongTypedInput : JsonObj :=
  [("id", JsonValue.str "1"), ("email", JsonValue.str "a@b.co"),
   ("subscribed", JsonValue.bool true), ("firstName", JsonValue.num 5)]

/-- The contact produced by decoding `wrongTypedInput`. -/
def wrongTypedDecoded : Contact :=
  { ID := "1", Email := "a@b.co", FirstName := none, LastName := none,
    Source := none, Subscribed := true, UserGroup := none, UserID := none,
    MailingLists := none, OptInStatus := none,
    Properties := [("firstName", JsonValue.num 5)] }

/-- Witness for `unmarshal_wrong_typed_optional_preserved`: decoding
`wrongTypedInput` succeeds, leaves `FirstName` unassigned, and places the
number-valued `firstName` entry verbatim in the extension mapping. -/
theorem unmarshal_wrong_typed_optional_preserved_witness :
    jlookup wrongTypedDecoded.Properties "firstName" =
      some (JsonValue.num 5) ∧
    optFieldOf wrongTypedDecoded "firstName" =
      optFieldOf emptyContact "firstName" :=
  unmarshal_wrong_typed_optional_preserved emptyContact wrongTypedDecoded
    wrongTypedInput "firstName" (by decide) (JsonValue.num 5) rfl
    (fun s h => JsonValue.noConfusion h) rfl

/-- One entry of the interceptor chain built by `NewClient`: the i-th custom
interceptor registered via `WithRequestInterceptors`, the authentication
mutator, or the content-type mutator. -/
inductive Interceptor where
  | custom (i : Nat) : Interceptor
  | auth : Interceptor
  | contentType : Interceptor
deriving Repr, DecidableEq

/-- The client configuration after the construction options have been
applied: the API key (empty when `WithAPIKey` was not used) and the custom
interceptors in registration order, identified by index. -/
structure ClientConfig where
  apiKey : String
  customInterceptors : List Nat
deriving Repr

/-- Models `NewClient`: `requestInterceptors := config.requestInterceptors` (the
custom interceptors, registration order), then append the authentication
mutator when `config.apiKey != ""`, then always append the content-type
mutator.  `newRequestWithBody` applies this list to each outgoing request in
order. -/
def buildInterceptorChain (config : ClientConfig) : List Interceptor :=
  let ris := config.customInterceptors.map Interceptor.custom
  let ris := if config.apiKey ≠ "" then ris ++ [Interceptor.auth] else ris
  ris ++ [Interceptor.contentType]

/-- The interceptor order the specification claims (refinement target,
written from the spec, not from the source): the authentication mutator
first, then the custom interceptors in registration order, then the
content-type mutator last. -/
def claimedInterceptorChain (config : ClientConfig) : List Interceptor :=
  [Interceptor.auth] ++ config.customInterceptors.map Interceptor.custom ++
    [Interceptor.contentType]

/-- Claim C4 counterexample: with an API key and one custom interceptor, the
chain built by `NewClient` runs the custom interceptor first and the
authentication mutator second — not the order the specification claims. -/
theorem interceptor_chain_order_counterexample :
    buildInterceptorChain ⟨"key", [0]⟩ =
      [Interceptor.custom 0, Interceptor.auth, Interceptor.contentType] ∧
    buildInterceptorChain ⟨"key", [0]⟩ ≠ claimedInterceptorChain ⟨"key", [0]⟩ := by
  decide

/-- Claim C4 (amended): for every client built with a non-empty API key, the
chain applied to each outgoing request runs the custom interceptors first,
in registration order, then the authentication mutator, then the
content-type mutator last. -/
theorem interceptor_chain_order (config : ClientConfig)
    (h : config.apiKey ≠ "") :
    buildInterceptorChain config =
      config.customInterceptors.map Interceptor.custom ++
        [Interceptor.auth, Interceptor.contentType] := by
  simp [buildInterceptorChain, h]

/-- Witness for `interceptor_chain_order` at a client with API key "key" and
two custom interceptors. -/
theorem interceptor_chain_order_witness :
    buildInterceptorChain ⟨"key", [0, 1]⟩ =
      [Interceptor.custom 0, Interceptor.custom 1] ++
        [Interceptor.auth, Interceptor.contentType] :=
  interceptor_chain_order ⟨"key", [0, 1]⟩ (by decide)

/-- Models `ContactIdentifier` (models.go): a pair of mutually exclusive lookup
fields. -/
structure ContactIdentifier where
  Email : Option String
  UserID : Option String
deriving Repr

/-- Models `Event` (models.go). -/
structure Event where
  Email : Option String
  UserID : Option String
  EventName : String
  ContactProperties : JsonObj
  EventProperties : Option JsonObj
  MailingLists : Option JsonObj
deriving Repr

/-- Client-side failures surfaced before or after the network call:
each `errors.New` message in client.go, with `ErrContactNotFound` as the
distinguished sentinel value. -/
inductive ClientError where
  | validation (msg : String)
  | contactNotFound
deriving Repr, DecidableEq

/-- An outgoing request as built by `newRequestWithBody` /
`newGetRequestWithQueryParams`: method, path (resolved against the fixed
base URL), encoded query parameters, and whether a JSON body is attached. -/
structure Request where
  method : String
  path : String
  query : List (String × String)
  hasBody : Bool
deriving Repr

/-- Models `FindContact` up to and including request construction (client.go lines
139-156): validate that exactly one of email / userId is set, then build a
GET `/contacts/find` request with the corresponding query parameter. -/
def FindContact (contact : ContactIdentifier) :
    Except ClientError Request :=
  if contact.Email = none ∧ contact.UserID = none then
    .error (.validation
      "contact identifier must contain either an email or a userId")
  else if contact.Email ≠ none ∧ contact.UserID ≠ none then
    .error (.validation
      "contact identifier must contain either an email or a userId, but not both")
  else
    let params :=
      (match contact.Email with
        | some e => [("email", e)]
        | none => []) ++
      (match contact.UserID with
        | some u => [("userId", u)]
        | none => [])
    .ok { method := "GET", path := "/contacts/find", query := params,
          hasBody := false }

/-- Models `DeleteContact` up to and including request construction (client.go
lines 170-177): the same validation, then a POST `/contacts/delete` request
whose body is the identifier. -/
def DeleteContact (contact : ContactIdentifier) :
    Except ClientError Request :=
  if contact.Email = none ∧ contact.UserID = none then
    .error (.validation
      "contact identifier must contain either an email or a userId")
  else if contact.Email ≠ none ∧ contact.UserID ≠ none then
    .error (.validation
      "contact identifier must contain either an email or a userId, but not both")
  else
    .ok { method := "POST", path := "/contacts/delete", query := [],
          hasBody := true }

/-- Models `SendEvent` up to and including request construction (client.go lines
199-205): validate that exactly one of email / userId is set, then build a
POST `/events/send` request with the event as body. -/
def SendEvent (event : Event) : Except ClientError Request :=
  if event.Email = none ∧ event.UserID = none then
    .error (.validation "event must contain either an email or a userId")
  else if event.Email ≠ none ∧ event.UserID ≠ none then
    .error (.validation
      "event must contain either an email or a userId, but not both")
  else
    .ok { method := "POST", path := "/events/send", query := [],
          hasBody := true }

/-- Models `FindContact` after a successful transport and decode (client.go lines
161-164): `if len(contacts) == 0, return ErrContactNotFound` else return
`contacts[0]`. -/
def findContactHandleResponse (contacts : List Contact) :
    Except ClientError Contact :=
  match contacts with
  | [] => .error .contactNotFound
  | c :: _ => .ok c

/-- Models `ListTransactionalEmailsOptions` (client.go lines 283-288). -/
structure ListTransactionalEmailsOptions where
  PerPage : Int
  Cursor : String
deriving Repr

/-- Models `ListTransactionalEmails` up to and including request construction
(client.go lines 294-309): a non-zero PerPage outside [10, 50] fails
validation before any request is built; otherwise a GET `/transactional`
request is built, carrying `perPage` when non-zero and `cursor` when
non-empty. -/
def ListTransactionalEmails (opts : ListTransactionalEmailsOptions) :
    Except ClientError Request :=
  if opts.PerPage ≠ 0 ∧ (opts.PerPage < 10 ∨ opts.PerPage > 50) then
    .error (.validation "perPage must be between 10 and 50 (inclusive)")
  else
    let params := if opts.PerPage ≠ 0 then
      [("perPage", toString opts.PerPage)] else []
    let params := if opts.Cursor ≠ "" then
      params ++ [("cursor", opts.Cursor)] else params
    .ok { method := "GET", path := "/transactional", query := params,
          hasBody := false }

/-- Claim C7: with neither Email nor UserID set, or with both set,
`FindContact`, `DeleteContact` and `SendEvent` fail with a validation error
before any request is built; with exactly one of the two set, validation
passes and a request is built. -/
theorem identifier_lookup_validation (e u : Option String) (name : String)
    (cps : JsonObj) (eps mls : Option JsonObj) :
    ((e = none ∧ u = none) →
      FindContact ⟨e, u⟩ = .error (.validation
        "contact identifier must contain either an email or a userId") ∧
      DeleteContact ⟨e, u⟩ = .error (.validation
        "contact identifier must contain either an email or a userId") ∧
      SendEvent ⟨e, u, name, cps, eps, mls⟩ = .error (.validation
        "event must contain either an email or a userId")) ∧
    ((e ≠ none ∧ u ≠ none) →
      FindContact ⟨e, u⟩ = .error (.validation
        "contact identifier must contain either an email or a userId, but not both") ∧
      DeleteContact ⟨e, u⟩ = .error (.validation
        "contact identifier must contain either an email or a userId, but not both") ∧
      SendEvent ⟨e, u, name, cps, eps, mls⟩ = .error (.validation
        "event must contain either an email or a userId, but not both")) ∧
    (((e = none ∧ u ≠ none) ∨ (e ≠ none ∧ u = none)) →
      (∃ r, FindContact ⟨e, u⟩ = .ok r) ∧
      (∃ r, DeleteContact ⟨e, u⟩ = .ok r) ∧
      (∃ r, SendEvent ⟨e, u, name, cps, eps, mls⟩ = .ok r)) := by
  cases e <;> cases u <;>
    simp [FindContact, DeleteContact, SendEvent]

/-- Witness for `identifier_lookup_validation`: with only an email set, all
three calls build a request; the neither / both cases are exercised through
the other two components at concrete identifiers. -/
theorem identifier_lookup_validation_witness :
    (∃ r, FindContact ⟨some "a@b.co", none⟩ = .ok r) ∧
    (∃ r, DeleteContact ⟨some "a@b.co", none⟩ = .ok r) ∧
    (∃ r, SendEvent ⟨some "a@b.co", none, "signup", [], none, none⟩ =
      .ok r) :=
  (identifier_lookup_validation (some "a@b.co") none "signup" [] none
    none).2.2 (Or.inr ⟨by decide, rfl⟩)

/-- Claim C8: a `FindContact` call whose transport and decoding succeed but
whose decoded contact list is empty returns the distinguished
`ErrContactNotFound`, never a success. -/
theorem find_contact_empty_is_not_found :
    findContactHandleResponse [] = .error ClientError.contactNotFound ∧
    (∀ c : Contact, findContactHandleResponse [] ≠ Except.ok c) ∧
    (∀ contacts : List Contact, ∀ c : Contact,
      findContactHandleResponse contacts = .ok c → contacts ≠ []) := by
  refine ⟨rfl, fun c h => Except.noConfusion h, ?_⟩
  intro contacts c h hnil
  subst hnil
  exact Except.noConfusion h

/-- Claim C9: a non-zero PerPage outside [10, 50] fails with a validation
error before any request is built; PerPage 20 or PerPage omitted (zero)
passes validation and a request is built. -/
theorem per_page_validation (opts : ListTransactionalEmailsOptions) :
    ((∃ r, ListTransactionalEmails opts = .ok r) ↔
      (opts.PerPage = 0 ∨ (10 ≤ opts.PerPage ∧ opts.PerPage ≤ 50))) ∧
    (opts.PerPage ≠ 0 → (opts.PerPage < 10 ∨ opts.PerPage > 50) →
      ListTransactionalEmails opts = .error
        (.validation "perPage must be between 10 and 50 (inclusive)")) := by
  constructor
  · constructor
    · intro ⟨r, hr⟩
      by_cases h : opts.PerPage ≠ 0 ∧ (opts.PerPage < 10 ∨ opts.PerPage > 50)
      · simp [ListTransactionalEmails, h] at hr
      · omega
    · intro h
      have hn : ¬ (opts.PerPage ≠ 0 ∧
          (opts.PerPage < 10 ∨ opts.PerPage > 50)) := by omega
      simp [ListTransactionalEmails, hn]
  · intro h1 h2
    simp [ListTransactionalEmails, h1, h2]

/-- Witness for `per_page_validation`: PerPage 5 fails validation; PerPage
20 and PerPage 0 build a request. -/
theorem per_page_validation_witness :
    ListTransactionalEmails ⟨5, ""⟩ = .error
      (.validation "perPage must be between 10 and 50 (inclusive)") ∧
    (∃ r, ListTransactionalEmails ⟨20, ""⟩ = .ok r) ∧
    (∃ r, ListTransactionalEmails ⟨0, ""⟩ = .ok r) :=
  ⟨(per_page_validation ⟨5, ""⟩).2 (by decide) (by norm_num),
   (per_page_validation ⟨20, ""⟩).1.mpr (by norm_num),
   (per_page_validation ⟨0, ""⟩).1.mpr (by norm_num)⟩

/-- An HTTP response body as read by `sendRequest`: the raw text together
with its JSON parse status — a JSON object, the JSON literal null, some
other JSON value (string / number / bool / array), or text that is not
valid JSON at all. -/
inductive RespBody where
  | jsonObj (fields : JsonObj) (raw : String) : RespBody
  | jsonNull (raw : String) : RespBody
  | jsonOther (raw : String) : RespBody
  | invalid (raw : String) : RespBody
deriving Repr

/-- Go `json.Unmarshal` of a JSON object into a struct string field bound to
`key`: an absent or null entry leaves the zero value "", a string entry
yields the string, and an entry of any other type is an unmarshal type
error (`none`). -/
def fieldAsString (fields : JsonObj) (key : String) : Option String :=
  match jlookup fields key with
  | none => some ""
  | some .null => some ""
  | some (.str s) => some s
  | some _ => none

/-- Go `json.Unmarshal` of a JSON object into a struct bool field bound to
`key`, with the same rules as `fieldAsString`. -/
def fieldAsBool (fields : JsonObj) (key : String) : Option Bool :=
  match jlookup fields key with
  | none => some false
  | some .null => some false
  | some (.bool b) => some b
  | some _ => none

/-- The error accompanying a status ≥ 300 response in `sendRequest`:
`remote` is an `errors.New` carrying the server-provided (or raw-body)
message, `decodeFail` is the wrapping error
"failed to unmarshal error message: ..." (carrying the raw body only to
identify the failure; the error text is the wrapped unmarshal error, not
the body), and `panicked` is the nil-pointer dereference that follows
decoding a JSON null into the doubly-indirect errorResponse pointer. -/
inductive SendErr where
  | remote (msg : String) : SendErr
  | decodeFail (raw : String) : SendErr
  | panicked : SendErr
deriving Repr, DecidableEq

/-- The second normalization step of `sendRequest` (lines 397-405):
`json.Unmarshal` into `MessageResponse` (bool `success`, string `message`);
on unmarshal failure wrap a decode error; on an empty message return the
raw body text; otherwise return the message. -/
def tryMessageResponse (fields : JsonObj) (raw : String) : SendErr :=
  match fieldAsBool fields "success", fieldAsString fields "message" with
  | some _, some m => if m = "" then SendErr.remote raw else SendErr.remote m
  | _, _ => SendErr.decodeFail raw

/-- The error-normalization path of `sendRequest` (lines 389-405): first
`json.Unmarshal` into `errorResponse` (string `error`); when that succeeds
with a non-empty message, surface it; otherwise fall through to the
`MessageResponse` step.  A JSON null body makes the first unmarshal succeed
by setting the doubly-indirect struct pointer to nil, so the following
`errorMsg.Error` read panics.  A non-object body fails both unmarshals and
surfaces the wrapping decode error, not the raw body. -/
def normalizeError (body : RespBody) : SendErr :=
  match body with
  | .jsonNull _ => SendErr.panicked
  | .jsonObj fields raw =>
    match fieldAsString fields "error" with
    | some e =>
      if e ≠ "" then SendErr.remote e else tryMessageResponse fields raw
    | none => tryMessageResponse fields raw
  | .jsonOther raw => SendErr.decodeFail raw
  | .invalid raw => SendErr.decodeFail raw

/-- Models the `sendRequest` status dispatch (line 380): a status below 300 is a
success response (decoded as the expected payload, out of scope here); a
status ≥ 300 runs the error-normalization path. -/
def sendRequestError (status : Nat) (body : RespBody) : Option SendErr :=
  if status < 300 then none else some (normalizeError body)

/-- Claim C2 counterexample: at status 400 with the non-JSON body
"internal error", `sendRequest` fails with the wrapping
"failed to unmarshal error message" decode error — not with the raw
response body text verbatim, as the claim states. -/
theorem send_request_raw_fallback_counterexample :
    sendRequestError 400 (RespBody.invalid "internal error") =
      some (SendErr.decodeFail "internal error") ∧
    sendRequestError 400 (RespBody.invalid "internal error") ≠
      some (SendErr.remote "internal error") := by
  decide

/-- Claim C2 (amended): for status ≥ 300, a JSON-object body whose `error`
field decodes to a non-empty string surfaces that string; otherwise a
JSON-object body that decodes into the message shape surfaces the message
when non-empty and the raw body text when the message is empty; a JSON
null body panics; and any body that decodes into neither struct shape
(a non-object JSON value, invalid JSON text, or an object whose fields
type-mismatch both shapes) surfaces the wrapping decode error, not the raw
body text. -/
theorem send_request_error_normalization (status : Nat) (body : RespBody)
    (hs : 300 ≤ status) :
    (∀ fields raw e, body = RespBody.jsonObj fields raw →
      fieldAsString fields "error" = some e → e ≠ "" →
      sendRequestError status body = some (SendErr.remote e)) ∧
    (∀ fields raw m, body = RespBody.jsonObj fields raw →
      (fieldAsString fields "error" = some "" ∨
        fieldAsString fields "error" = none) →
      fieldAsBool fields "success" ≠ none →
      fieldAsString fields "message" = some m → m ≠ "" →
      sendRequestError status body = some (SendErr.remote m)) ∧
    (∀ fields raw, body = RespBody.jsonObj fields raw →
      (fieldAsString fields "error" = some "" ∨
        fieldAsString fields "error" = none) →
      fieldAsBool fields "success" ≠ none →
      fieldAsString fields "message" = some "" →
      sendRequestError status body = some (SendErr.remote raw)) ∧
    (∀ raw, body = RespBody.invalid raw ∨ body = RespBody.jsonOther raw →
      sendRequestError status body = some (SendErr.decodeFail raw)) ∧
    (∀ raw, body = RespBody.jsonNull raw →
      sendRequestError status body = some SendErr.panicked) := by
  have hns : ¬ (status < 300) := by omega
  refine ⟨?_, ?_, ?_, ?_, ?_⟩
  · intro fields raw e hb herr hne
    subst hb
    simp [sendRequestError, hns, normalizeError, herr, hne]
  · intro fields raw m hb herr hsucc hmsg hne
    subst hb
    obtain ⟨b, hb2⟩ : ∃ b, fieldAsBool fields "success" = some b := by
      cases h : fieldAsBool fields "success" with
      | none => exact absurd h hsucc
      | some b => exact ⟨b, rfl⟩
    rcases herr with h | h <;>
      simp [sendRequestError, hns, normalizeError, h, tryMessageResponse,
        hb2, hmsg, hne]
  · intro fields raw hb herr hsucc hmsg
    subst hb
    obtain ⟨b, hb2⟩ : ∃ b, fieldAsBool fields "success" = some b := by
      cases h : fieldAsBool fields "success" with
      | none => exact absurd h hsucc
      | some b => exact ⟨b, rfl⟩
    rcases herr with h | h <;>
      simp [sendRequestError, hns, normalizeError, h, tryMessageResponse,
        hb2, hmsg]
  · intro raw hb
    rcases hb with rfl | rfl <;> simp [sendRequestError, hns, normalizeError]
  · intro raw hb
    subst hb
    simp [sendRequestError, hns, normalizeError]

/-- Witness for `send_request_error_normalization`, exercising the first
arm: status 400 with body containing an `error` field surfaces exactly that
message. -/
theorem send_request_error_normalization_witness :
    sendRequestError 400
      (RespBody.jsonObj [("error", JsonValue.str "bad request")]
        "raw body") = some (SendErr.remote "bad request") :=
  (send_request_error_normalization 400
    (RespBody.jsonObj [("error", JsonValue.str "bad request")] "raw body")
    (by norm_num)).1
    [("error", JsonValue.str "bad request")] "raw body" "bad request" rfl
    rfl (by decide)

/-- Witness for `find_contact_empty_is_not_found`: a singleton decoded list
yields a success, and therefore is not the empty list. -/
theorem find_contact_empty_is_not_found_witness :
    ([roundtripExample] : List Contact) ≠ [] :=
  (find_contact_empty_is_not_found).2.2 [roundtripExample] roundtripExample
    rfl
